import Mathlib

/-!
Shallow embedding of the Retrieval-Confidence Pipeline of the
Dataextract_model repository, together with proofs about the claims of
its specification.  Python dictionaries holding chunk metadata are
embedded as a `Chunk` structure whose optional fields model optional
dictionary keys; machine integers are `Nat`/`Int` (Python integers are
unbounded, so no modular arithmetic is needed); external collaborators
(embedding provider, FAISS search, LLM backends, MongoDB connection)
are environment parameters, while every piece of repository logic is
translated directly from the source.
-/

/-- A chunk metadata dictionary as produced by
`chunk_with_metadata` (app/core/chunking.py) and stored in the vector
store's mapping (app/storage/vector_store.py).  Optional fields model
dictionary keys that may be absent (the code reads them with
`.get(key, default)`); `deleted` models the soft-delete flag set by
`delete_by_file` (absent key = `false`, matching `.get('deleted', False)`). -/
structure Chunk where
  text : String := ""
  chunk_id : Option Int := none
  file : Option String := none
  file_path : Option String := none
  start_char : Int := 0
  end_char : Int := 0
  deleted : Bool := false
deriving DecidableEq, Repr

/-! ## Vector store (app/storage/vector_store.py)

The chunk mapping is a Python dict from integer FAISS positions to
chunk metadata; we embed it as an association list with unique-key
lookup (first binding wins, as in a dict). -/

/-- Dictionary lookup `mapping[idx]` / `idx in mapping`. -/
def lookupIdx (mapping : List (Nat × Chunk)) (idx : Nat) : Option Chunk :=
  (mapping.find? (fun p => p.1 == idx)).map Prod.snd

/-- `get_chunks_by_indices` (vector_store.py lines 131-149): for each
requested index in input order, include `mapping[idx]` whenever the
index is present in the mapping.  The source consults only membership;
it does not read the `deleted` flag. -/
def get_chunks_by_indices (mapping : List (Nat × Chunk)) (indices : List Nat) : List Chunk :=
  indices.filterMap (lookupIdx mapping)

/-- `delete_by_file` (vector_store.py lines 152-173): flag `deleted` on
every mapping entry whose `file_path` equals the given path, and return
the new mapping together with the number of flagged entries. -/
def delete_by_file (mapping : List (Nat × Chunk)) (file_path : String) :
    List (Nat × Chunk) × Nat :=
  (mapping.map (fun p =>
      if p.2.file_path == some file_path then (p.1, { p.2 with deleted := true }) else p),
   (mapping.filter (fun p => p.2.file_path == some file_path)).length)

/-! ## Diversity reranker (app/utils/diversity.py) -/

/-- The grouping key `chunk.get('file_path', chunk.get('file', 'unknown'))`. -/
def diversityKey (c : Chunk) : String :=
  match c.file_path with
  | some fp => fp
  | none =>
    match c.file with
    | some f => f
    | none => "unknown"

/-- Accumulate the distinct grouping keys in first-appearance order,
as dict insertion does. -/
def distinctKeysAux (acc : List String) : List String → List String
  | [] => acc
  | k :: rest =>
    if acc.contains k then distinctKeysAux acc rest
    else distinctKeysAux (acc ++ [k]) rest

/-- The distinct grouping keys in first-appearance order — the key set
of the `file_groups` dict built by `ensure_file_diversity`. -/
def distinctKeys (l : List String) : List String := distinctKeysAux [] l

/-- `file_groups[f]`: the chunks whose key is `f`, in input order. -/
def groupOf (chunks : List Chunk) (f : String) : List Chunk :=
  chunks.filter (fun c => diversityKey c == f)

/-- Pointwise increment of the per-file counters
(`per_file_count` / `file_positions`, which always coincide). -/
def bumpCount (t : String → Nat) (f : String) : String → Nat :=
  fun x => if x = f then t x + 1 else t x

/-- One round of the round-robin `for file_path in file_paths` loop of
`ensure_file_diversity`: visit the files in order, appending each
file's next unconsumed chunk while its cap and the total cap allow it;
the boolean is `added_in_round`. -/
def oneRound (groups : String → List Chunk) (maxChunks maxPerFile : Nat) :
    List String → List Chunk → (String → Nat) → List Chunk × (String → Nat) × Bool
  | [], result, taken => (result, taken, false)
  | f :: rest, result, taken =>
    if maxChunks ≤ result.length then (result, taken, false)
    else if taken f < maxPerFile ∧ taken f < (groups f).length then
      match (groups f)[taken f]? with
      | some c =>
        let out := oneRound groups maxChunks maxPerFile rest (result ++ [c]) (bumpCount taken f)
        (out.1, out.2.1, true)
      | none => oneRound groups maxChunks maxPerFile rest result taken
    else oneRound groups maxChunks maxPerFile rest result taken

/-- The `while len(result) < max_chunks` loop of `ensure_file_diversity`,
run on explicit fuel.  Every executed round is entered with
`result.length < maxChunks` and every productive round grows the result,
so the loop executes at most `maxChunks` productive rounds plus one
final unproductive round; fuel `maxChunks + 1` therefore reproduces the
Python loop exactly. -/
def roundRobin (groups : String → List Chunk) (maxChunks maxPerFile : Nat)
    (keys : List String) : Nat → List Chunk → (String → Nat) → List Chunk
  | 0, result, _ => result
  | fuel + 1, result, taken =>
    if result.length < maxChunks then
      if (oneRound groups maxChunks maxPerFile keys result taken).2.2 then
        roundRobin groups maxChunks maxPerFile keys fuel
          (oneRound groups maxChunks maxPerFile keys result taken).1
          (oneRound groups maxChunks maxPerFile keys result taken).2.1
      else (oneRound groups maxChunks maxPerFile keys result taken).1
    else result

/-- `ensure_file_diversity` (diversity.py lines 7-70): empty input gives
empty output; a single distinct source file returns the first
`max_chunks` candidates unchanged; otherwise chunks are taken
round-robin across the files in first-appearance order, subject to the
per-file cap and the total cap. -/
def ensure_file_diversity (chunks : List Chunk) (max_chunks : Nat := 10)
    (max_per_file : Nat := 5) : List Chunk :=
  if chunks.isEmpty then []
  else if (distinctKeys (chunks.map diversityKey)).length == 1 then chunks.take max_chunks
  else roundRobin (groupOf chunks) max_chunks max_per_file
    (distinctKeys (chunks.map diversityKey)) (max_chunks + 1) [] (fun _ => 0)

/-! ## Confidence-response parser (app/core/llm.py lines 339-369)

`parse_confidence_response` uses three `re.search` calls.  We embed the
regular-expression semantics on ASCII text: the search scans positions
left to right and succeeds at the first position where the whole
pattern matches; `re.IGNORECASE` folds ASCII letters; `\s` is Python's
ASCII whitespace class; `\d+` is a maximal run of decimal digits. -/

/-- ASCII case folding used by `re.IGNORECASE` and `str.lower()`. -/
def lowerNat (c : Char) : Nat :=
  if 65 ≤ c.toNat ∧ c.toNat ≤ 90 then c.toNat + 32 else c.toNat

/-- Case-insensitive character comparison. -/
def ciEq (a b : Char) : Bool := lowerNat a == lowerNat b

/-- Match a literal pattern case-insensitively at the head of the text,
returning the remaining text on success. -/
def matchLitCI : List Char → List Char → Option (List Char)
  | [], s => some s
  | _ :: _, [] => none
  | p :: ps, x :: xs => if ciEq p x then matchLitCI ps xs else none

/-- Python regex `\s` / `str.strip()` whitespace on ASCII. -/
def isPyWS (c : Char) : Bool :=
  c == ' ' || c == '\t' || c == '\n' || c == '\r' || c == '\x0b' || c == '\x0c'

/-- `str.strip()`. -/
def pyStrip (s : List Char) : List Char :=
  ((s.dropWhile isPyWS).reverse.dropWhile isPyWS).reverse

/-- `int` of a non-empty decimal digit string. -/
def digitsToNat (ds : List Char) : Nat :=
  ds.foldl (fun n c => 10 * n + (c.toNat - 48)) 0

/-- `re.search(r'CONFIDENCE:\s*(\d+)', text, re.IGNORECASE)` followed by
`int(...)` on the captured group: at the first position where the
literal is followed (after optional whitespace) by at least one digit,
return the value of the maximal digit run.  A position where the
literal matches but no digit follows cannot match the pattern (no
backtracking of `\s*` can produce a digit), so the scan continues. -/
def findConfidence : List Char → Option Nat
  | [] => none
  | c :: cs =>
    match matchLitCI "confidence:".toList (c :: cs) with
    | some rest =>
      let ds := (rest.dropWhile isPyWS).takeWhile Char.isDigit
      if ds.isEmpty then findConfidence cs else some (digitsToNat ds)
    | none => findConfidence cs

/-- Does `CONFIDENCE:` match (case-insensitively) at the head of the text? -/
def confAt (s : List Char) : Bool := (matchLitCI "confidence:".toList s).isSome

/-- Length of the lazy group `(.+?)` (DOTALL) after its forced first
character, stopping at the earliest position where the lookahead
`(?=CONFIDENCE:|$)` holds: the number of characters before the next
`CONFIDENCE:` occurrence, or all remaining characters. -/
def stopLen : List Char → Nat
  | [] => 0
  | c :: cs => if confAt (c :: cs) then 0 else 1 + stopLen cs

/-- Match `ANSWER:\s*(.+?)(?=CONFIDENCE:|$)` (DOTALL, IGNORECASE) at the
head of the text, returning the captured group.  After the literal,
greedy `\s*` consumes the whitespace run; the lazy `.+?` then takes its
forced first character and extends to the earliest `CONFIDENCE:` or end
of text.  If nothing follows the whitespace run, the engine backtracks
`\s*` by one character and captures that whitespace character; if
nothing at all follows the literal, the pattern cannot match here. -/
def matchAnswerAt (s : List Char) : Option (List Char) :=
  match matchLitCI "answer:".toList s with
  | none => none
  | some rest =>
    match rest.dropWhile isPyWS with
    | [] =>
      match rest with
      | [] => none
      | r :: rs => some [(r :: rs).getLastD ' ']
    | b :: bs => some ((b :: bs).take (1 + stopLen bs))

/-- The left-to-right `re.search` scan for the `ANSWER:` pattern. -/
def findAnswer : List Char → Option (List Char)
  | [] => none
  | c :: cs =>
    match matchAnswerAt (c :: cs) with
    | some g => some g
    | none => findAnswer cs

/-- Match `REASONING:\s*(.+?)$` (DOTALL, IGNORECASE) at the head of the
text.  The group captures everything after the literal and the
whitespace run (`$` also accepts the position before a trailing
newline, and the whitespace-only backtracking case captures a single
whitespace character; both yield the same text once the caller applies
`str.strip()`, so we return the text after the literal and let the
caller strip it). -/
def matchReasoningAt (s : List Char) : Option (List Char) :=
  match matchLitCI "reasoning:".toList s with
  | none => none
  | some rest =>
    match rest with
    | [] => none
    | _ => some rest

/-- The left-to-right `re.search` scan for the `REASONING:` pattern. -/
def findReasoning : List Char → Option (List Char)
  | [] => none
  | c :: cs =>
    match matchReasoningAt (c :: cs) with
    | some g => some g
    | none => findReasoning cs

/-- The dictionary returned by `parse_confidence_response`. -/
structure ConfidenceResult where
  answer : String
  confidence_score : Nat
  reasoning : String
deriving DecidableEq, Repr

/-- `parse_confidence_response` (llm.py lines 339-369): extract the
`ANSWER:` group (else the whole stripped text), the clamped
`CONFIDENCE:` value (else the default 50), and the `REASONING:` group
(else the empty string).  `min(100, max(0, int(...)))` on a digit-run
value is `min 100 v`. -/
def parse_confidence_response (text : String) : ConfidenceResult :=
  { answer :=
      match findAnswer text.toList with
      | some g => String.mk (pyStrip g)
      | none => String.mk (pyStrip text.toList),
    confidence_score :=
      match findConfidence text.toList with
      | some v => min 100 v
      | none => 50,
    reasoning :=
      match findReasoning text.toList with
      | some g => String.mk (pyStrip g)
      | none => "" }

/-! ## Learned-answer cache (app/storage/learned_answers.py)

The MongoDB collection is embedded as a list of documents in natural
order; `find_one` returns the first match, `update_one` updates the
first match, and `update_one(..., upsert=True)` with a full `$set`
replaces the first match or appends.  The connection being `None`
(no URI / `ConnectionFailure`) is the `none` store; driver exceptions
inside the `try` blocks are modelled by behavior flags, since whether a
given call raises is a property of the external database. -/

/-- A document of the `learned_answers` collection. -/
structure LearnedDoc where
  question : String := ""
  question_lower : String := ""
  answer : String := ""
  confidence_score : Nat := 0
  source : Option String := some "internet"
  source_query : Option String := none
  created_at : Nat := 0
  last_accessed : Nat := 0
  access_count : Nat := 1
deriving DecidableEq, Repr

/-- ASCII `str.lower()`. -/
def pyLower (s : List Char) : List Char :=
  s.map (fun c => if 65 ≤ c.toNat ∧ c.toNat ≤ 90 then Char.ofNat (c.toNat + 32) else c)

/-- `question.lower().strip()`, the normalized cache key. -/
def normalizeQ (q : String) : String := String.mk (pyStrip (pyLower q.toList))

/-- `collection.find_one({"question_lower": ql})`: first matching document. -/
def findOneByQL (docs : List LearnedDoc) (ql : String) : Option LearnedDoc :=
  docs.find? (fun d => d.question_lower == ql)

/-- `collection.update_one({"question_lower": ql}, {"$set": doc}, upsert=True)`
with a full-document `$set`: replace the first matching document
(keeping only its `_id`, which the embedding does not track) or append
the new document. -/
def upsertByQL (docs : List LearnedDoc) (ql : String) (doc : LearnedDoc) : List LearnedDoc :=
  match docs with
  | [] => [doc]
  | d :: ds => if d.question_lower == ql then doc :: ds else d :: upsertByQL ds ql doc

/-- `update_one({"_id": result._id}, ...)` after `find_one` returned the
first `ql` match: update exactly that document. -/
def updateFirstByQL (docs : List LearnedDoc) (ql : String)
    (f : LearnedDoc → LearnedDoc) : List LearnedDoc :=
  match docs with
  | [] => []
  | d :: ds => if d.question_lower == ql then f d :: ds else d :: updateFirstByQL ds ql f

/-- Which driver calls raise inside the `try` blocks (a property of the
external MongoDB deployment, not of the repository's code). -/
structure MongoBehavior where
  findFails : Bool := false
  updateFails : Bool := false
  saveFails : Bool := false
deriving DecidableEq, Repr

/-- `search_learned_answer` (learned_answers.py lines 43-76): `None`
when the collection is unreachable; otherwise exact-match lookup on the
normalized question inside a `try` that turns any exception into
`None`.  On a hit it increments `access_count` and sets `last_accessed`
on the stored document, then returns the document as read (before the
increment).  The result pairs the returned value with the store state. -/
def search_learned_answer (store : Option (List LearnedDoc)) (beh : MongoBehavior)
    (now : Nat) (question : String) : Option LearnedDoc × Option (List LearnedDoc) :=
  match store with
  | none => (none, none)
  | some docs =>
    if beh.findFails then (none, some docs)
    else
      match findOneByQL docs (normalizeQ question) with
      | some r =>
        if beh.updateFails then (none, some docs)
        else
          (some r,
           some (updateFirstByQL docs (normalizeQ question)
             (fun d => { d with access_count := d.access_count + 1, last_accessed := now })))
      | none => (none, some docs)

/-- `save_learned_answer` (learned_answers.py lines 79-126): `False`
when the collection is unreachable or the upsert raises; otherwise
upsert the full document (including `access_count = 1`) keyed by the
normalized question and return `True`. -/
def save_learned_answer (store : Option (List LearnedDoc)) (beh : MongoBehavior)
    (now : Nat) (question answer : String) (confidence_score : Nat)
    (source_query : Option String := none) : Bool × Option (List LearnedDoc) :=
  match store with
  | none => (false, none)
  | some docs =>
    if beh.saveFails then (false, some docs)
    else
      let doc : LearnedDoc :=
        { question := question, question_lower := normalizeQ question,
          answer := answer, confidence_score := confidence_score,
          source := some "internet", source_query := source_query,
          created_at := now, last_accessed := now, access_count := 1 }
      (true, some (upsertByQL docs (normalizeQ question) doc))

/-- Number of collection documents keyed by a normalized question. -/
def countQL (docs : List LearnedDoc) (ql : String) : Nat :=
  (docs.filter (fun d => d.question_lower == ql)).length

/-! ## Question classifier (app/utils/query_understanding.py) -/

/-- `needle in haystack` (Python substring test). -/
def containsSub : List Char → List Char → Bool
  | hay, needle =>
    if needle.isPrefixOf hay then true
    else
      match hay with
      | [] => false
      | _ :: t => containsSub t needle

/-- `any(q in question_lower for q in cues)`. -/
def containsAny (hay : String) (needles : List String) : Bool :=
  needles.any (fun n => containsSub hay.toList n.toList)

/-- `analyze_question_type` (query_understanding.py lines 7-44):
keyword cues tested in fixed priority order on the lowered, stripped
question. -/
def analyze_question_type (question : String) : String :=
  let ql := normalizeQ question
  if containsAny ql ["what is", "what are", "define", "meaning of", "definition of"] then
    "definition"
  else if containsAny ql ["how to", "how do", "how does", "how can", "steps to",
      "process of", "way to"] then
    "how_to"
  else if containsAny ql ["difference between", "compare", "vs", "versus", "differ from",
      "contrast"] then
    "comparison"
  else if containsAny ql ["example", "give me", "show me", "demonstrate", "instance of"] then
    "example"
  else if containsAny ql ["list", "types of", "kinds of", "categories", "what are the"] then
    "list"
  else if containsAny ql ["explain", "why", "describe", "tell me about", "elaborate"] then
    "explanation"
  else "other"

/-- The fixed guidance string attached to each question type
(`guidance_map` in `get_question_context`). -/
def guidanceFor (t : String) : String :=
  if t = "definition" then
    "Provide a clear, concise definition followed by an explanation. Use simple language and examples from the context if available."
  else if t = "how_to" then
    "Provide step-by-step instructions or explain the process clearly. Break down complex procedures into numbered steps. Include any prerequisites or important notes."
  else if t = "comparison" then
    "Highlight key similarities and differences in a structured way. Use a comparison format (e.g., \"X does... while Y does...\"). Be specific and reference the context."
  else if t = "example" then
    "Provide concrete, specific examples from the context. If multiple examples exist, choose the most relevant or illustrative one. Explain why the example demonstrates the concept."
  else if t = "list" then
    "Provide a clear, organized list. Use bullet points or numbering. Include brief explanations for each item if helpful."
  else if t = "explanation" then
    "Explain the concept thoroughly with reasoning. Break down complex ideas into digestible parts. Use analogies or examples from the context when helpful."
  else
    "Answer the question comprehensively based on the context. Be clear, helpful, and educational in your response."

/-- `get_question_context` (query_understanding.py lines 47-79): the
`(type, guidance)` pair. -/
def get_question_context (question : String) : String × String :=
  let t := analyze_question_type question
  (t, guidanceFor t)

/-! ## Query orchestrator (app/api/query.py)

External collaborators are an environment: the embedding provider plus
FAISS search plus `get_chunks_by_indices` form the retrieval composite
(`retrieve`), and the two LLM entry points (`generate_with_confidence`,
`generate_internet_answer`) return parsed results whose content is
determined by the external model.  All routing logic is translated from
the source. -/

/-- The dictionary returned by the generation entry points:
`{"answer", "confidence_score", "reasoning"}`. -/
structure GenResult where
  answer : String := ""
  confidence_score : Nat := 0
  reasoning : String := ""
deriving DecidableEq, Repr

/-- The external collaborators of the query endpoints. -/
structure QueryEnv where
  /-- `get_query_embeddings` + `search_vectors` + `get_chunks_by_indices`
  for a question and a requested `k`. -/
  retrieve : String → Int → List Chunk
  /-- `generate_with_confidence (context, question, question_type, guidance)`. -/
  gen : String → String → String → String → GenResult
  /-- `generate_internet_answer (question)`. -/
  igen : String → GenResult

/-- `QueryRequest` (query.py lines 25-27).  The model declares
`question: str` and `top_k: Optional[int] = 5` with no validators. -/
structure QueryRequest where
  question : String
  top_k : Int := 5
deriving DecidableEq, Repr

/-- One entry of the `sources` list of a response. -/
inductive SourceItem where
  | learnedItem (original_source : String)
  | fileItem (file : String) (chunk_id : Int)
deriving DecidableEq, Repr

/-- `SmartQueryResponse` (query.py lines 30-37). -/
structure SmartQueryResponse where
  question : String
  answer : String
  confidence_score : Nat
  source : String
  sources : List SourceItem
  offer_internet : Bool
  reasoning : String
deriving DecidableEq, Repr

/-- `LOCAL_DB_THRESHOLD` (query.py line 21). -/
def LOCAL_DB_THRESHOLD : Nat := 60

/-- `LEARNING_THRESHOLD` (query.py line 22). -/
def LEARNING_THRESHOLD : Nat := 90

/-- The response built on a learned-cache hit (query.py lines 66-75). -/
def learnedResponse (q : String) (d : LearnedDoc) : SmartQueryResponse :=
  { question := q, answer := d.answer, confidence_score := d.confidence_score,
    source := "learned",
    sources := [SourceItem.learnedItem (d.source.getD "internet")],
    offer_internet := false,
    reasoning := "This answer was previously learned and saved." }

/-- The context string assembled in query.py lines 107-122: each chunk
prefixed with its `[Source i: file]` marker, joined by the separator. -/
def contextFor (chunks : List Chunk) : String :=
  String.intercalate "\n\n---\n\n"
    ((chunks.enumFrom 1).map
      (fun p => "[Source " ++ toString p.1 ++ ": " ++ (p.2.file.getD "unknown") ++ "]\n" ++ p.2.text))

/-- The `sources` list assembled in query.py lines 117-120. -/
def buildSources (chunks : List Chunk) : List SourceItem :=
  chunks.map (fun c => SourceItem.fileItem (c.file.getD "unknown") (c.chunk_id.getD (-1)))

/-- `smart_query` (query.py lines 54-147): learned-cache lookup first;
on a miss, retrieve `min(top_k * 2, 40)` candidates, answer `source =
"none"` when nothing comes back, otherwise diversify with
`max_chunks = top_k` and `max_per_file = max(3, top_k // 2)`, classify
the question, generate, and set `offer_internet = (confidence <
LOCAL_DB_THRESHOLD)`.  Python `//` is floor division (`Int.fdiv`); the
diversity caps are naturals because every execution that reaches the
reranker has a positive `top_k` (a negative `top_k` makes the FAISS
search raise first). -/
def smart_query (env : QueryEnv) (store : Option (List LearnedDoc)) (beh : MongoBehavior)
    (now : Nat) (req : QueryRequest) : SmartQueryResponse :=
  match (search_learned_answer store beh now req.question).1 with
  | some learned => learnedResponse req.question learned
  | none =>
    let search_k : Int := min (req.top_k * 2) 40
    let chunks_data := env.retrieve req.question search_k
    if chunks_data.isEmpty then
      { question := req.question,
        answer := "No documents have been uploaded yet. Would you like me to search using my general knowledge?",
        confidence_score := 0, source := "none", sources := [],
        offer_internet := true,
        reasoning := "No documents found in the database." }
    else
      let chunks2 := ensure_file_diversity chunks_data req.top_k.toNat
        (max 3 (Int.fdiv req.top_k 2)).toNat
      let qc := get_question_context req.question
      let result := env.gen (contextFor chunks2) req.question qc.1 qc.2
      { question := req.question, answer := result.answer,
        confidence_score := result.confidence_score,
        source := "local_db", sources := buildSources chunks2,
        offer_internet := decide (result.confidence_score < LOCAL_DB_THRESHOLD),
        reasoning := result.reasoning }

/-- `InternetQueryRequest` (query.py lines 40-42). -/
structure InternetQueryRequest where
  question : String
  save_if_confident : Bool := true
deriving DecidableEq, Repr

/-- `InternetQueryResponse` (query.py lines 45-51). -/
structure InternetQueryResponse where
  question : String
  answer : String
  confidence_score : Nat
  source : String
  saved_to_db : Bool
  reasoning : String
deriving DecidableEq, Repr

/-- `internet_query` (query.py lines 150-181): open-knowledge
generation, then a save to the learned cache exactly when the caller
opted in and the confidence clears `LEARNING_THRESHOLD`; `saved_to_db`
is the save's return value (or `False` when no save was attempted).
The result pairs the response with the store state. -/
def internet_query (env : QueryEnv) (store : Option (List LearnedDoc)) (beh : MongoBehavior)
    (now : Nat) (req : InternetQueryRequest) :
    InternetQueryResponse × Option (List LearnedDoc) :=
  let result := env.igen req.question
  let confidence := result.confidence_score
  let savedAndStore :=
    if req.save_if_confident ∧ LEARNING_THRESHOLD ≤ confidence then
      save_learned_answer store beh now req.question result.answer confidence none
    else (false, store)
  ({ question := req.question, answer := result.answer,
     confidence_score := confidence, source := "internet",
     saved_to_db := savedAndStore.1, reasoning := result.reasoning },
   savedAndStore.2)

/-! ## Concrete sample data used by witnesses and counterexamples -/

/-- A stored chunk of file `/up/a.txt`. -/
def c1Chunk : Chunk :=
  { text := "hello", chunk_id := some 0, file := some "a.txt", file_path := some "/up/a.txt" }

/-- A one-entry chunk mapping. -/
def c1Mapping : List (Nat × Chunk) := [(0, c1Chunk)]

/-- Two chunks of the same source file. -/
def c3a : Chunk := { text := "x1", file_path := some "f.pdf" }

/-- Second chunk of the same source file as `c3a`. -/
def c3b : Chunk := { text := "x2", file_path := some "f.pdf" }

/-- A chunk of a second source file. -/
def c3c : Chunk := { text := "y1", file_path := some "g.pdf" }

/-- A learned record for the normalized question `what is photosynthesis?`. -/
def docPhoto : LearnedDoc :=
  { question := "What is Photosynthesis?", question_lower := "what is photosynthesis?",
    answer := "Plants convert light to energy.", confidence_score := 93 }

/-- A retrievable chunk of file `f1.pdf`. -/
def chunkF1 : Chunk :=
  { text := "alpha", chunk_id := some 0, file := some "f1.pdf", file_path := some "/up/f1.pdf" }

/-- An environment with an empty index and zero-confidence generation. -/
def envZero : QueryEnv :=
  { retrieve := fun _ _ => [], gen := fun _ _ _ _ => {}, igen := fun _ => {} }

/-- An environment with one retrievable chunk and high-confidence generation. -/
def envRich : QueryEnv :=
  { retrieve := fun _ _ => [chunkF1],
    gen := fun _ _ _ _ => { answer := "rich", confidence_score := 99, reasoning := "strong" },
    igen := fun _ => { answer := "net", confidence_score := 91, reasoning := "web" } }

/-- An environment whose local generation reports confidence 45. -/
def env45 : QueryEnv :=
  { retrieve := fun _ _ => [chunkF1],
    gen := fun _ _ _ _ => { answer := "a45", confidence_score := 45, reasoning := "r45" },
    igen := fun _ => {} }

/-- An environment whose local generation reports confidence 75. -/
def env75 : QueryEnv :=
  { retrieve := fun _ _ => [chunkF1],
    gen := fun _ _ _ _ => { answer := "a75", confidence_score := 75, reasoning := "r75" },
    igen := fun _ => {} }

/-- An environment whose internet generation reports confidence 92. -/
def envI92 : QueryEnv :=
  { retrieve := fun _ _ => [], gen := fun _ _ _ _ => {},
    igen := fun _ => { answer := "ans92", confidence_score := 92, reasoning := "sure" } }

/-- An environment whose internet generation reports confidence 85. -/
def envI85 : QueryEnv :=
  { retrieve := fun _ _ => [], gen := fun _ _ _ _ => {},
    igen := fun _ => { answer := "ans85", confidence_score := 85, reasoning := "less sure" } }

/-- A learned record for the empty (normalized) question. -/
def docEmptyQ : LearnedDoc :=
  { question := "", question_lower := "", answer := "cached", confidence_score := 77 }

/-- A learned record whose `access_count` has already reached 2. -/
def docPrior : LearnedDoc :=
  { question := "q", question_lower := "q", answer := "old", confidence_score := 91,
    access_count := 2 }

/-! # Theorems -/

/-- C1: evaluating the code at the failing input.  After
`delete_by_file` flags the single chunk of file `/up/a.txt` (count 1),
`get_chunks_by_indices [0]` still returns that chunk, with its
`deleted` flag set and its source file `/up/a.txt` — the read path
never consults the flag, contradicting the soft-delete exclusion that
the specification and the repository's own `test_deleted_chunks.py`
(`assert deleted_count == 0`) require. -/
theorem C1_soft_delete_not_excluded :
    (delete_by_file c1Mapping "/up/a.txt").2 = 1 ∧
    (get_chunks_by_indices (delete_by_file c1Mapping "/up/a.txt").1 [0]).map
        (fun c => (c.file_path, c.deleted)) = [(some "/up/a.txt", true)] := by
  decide

/-- C2 counterexample: on input containing `CONFIDENCE: -5` the parser
yields confidence 50, not the 0 the claim states — the pattern
`CONFIDENCE:\s*(\d+)` matches only unsigned digit runs, so the minus
sign makes the search fail and the neutral default apply. -/
theorem C2_negative_confidence_is_default :
    (parse_confidence_response "ANSWER: It is unclear.\nCONFIDENCE: -5\nREASONING: none").confidence_score = 50 ∧
    (parse_confidence_response "ANSWER: It is unclear.\nCONFIDENCE: -5\nREASONING: none").confidence_score ≠ 0 := by
  decide

/-- C2 amended: `CONFIDENCE: 150` is clamped to 100; `CONFIDENCE: -5`
fails to parse (digits-only pattern) and yields the default 50, not 0;
and for every input on which the confidence search fails the score is
50, with the whole stripped text used as the answer whenever the
`ANSWER:` search fails as well. -/
theorem C2_confidence_clamp_amended :
    (parse_confidence_response "ANSWER: ok\nCONFIDENCE: 150\nREASONING: sure").confidence_score = 100 ∧
    (parse_confidence_response "ANSWER: ok\nCONFIDENCE: -5\nREASONING: sure").confidence_score = 50 ∧
    ∀ text : String, findConfidence text.toList = none →
      (parse_confidence_response text).confidence_score = 50 ∧
        (findAnswer text.toList = none →
          (parse_confidence_response text).answer = String.mk (pyStrip text.toList)) := by
  refine ⟨by decide, by decide, ?_⟩
  intro t hconf
  have hconf' : findConfidence t.data = none := hconf
  constructor
  · simp [parse_confidence_response, hconf']
  · intro hans
    have hans' : findAnswer t.data = none := hans
    simp [parse_confidence_response, hans']

/-- C2 witness: the amended theorem applied to the concrete
protocol-free input `hello world`. -/
theorem C2_confidence_clamp_amended_witness :
    (parse_confidence_response "hello world").confidence_score = 50 ∧
    (parse_confidence_response "hello world").answer = "hello world" := by
  have h := C2_confidence_clamp_amended.2.2 "hello world" (by decide)
  refine ⟨h.1, ?_⟩
  rw [h.2 (by decide)]
  decide

/-- C5: when the learned-cache lookup returns a record, `smart_query`
returns the learned response (source `learned`, `offer_internet =
false`) and the result is the same for every environment — no
retrieval and no generation influences it. -/
theorem C5_cache_hit_short_circuit (env env' : QueryEnv)
    (store : Option (List LearnedDoc)) (beh : MongoBehavior) (now : Nat)
    (req : QueryRequest) (d : LearnedDoc)
    (h : (search_learned_answer store beh now req.question).1 = some d) :
    smart_query env store beh now req = learnedResponse req.question d ∧
    smart_query env' store beh now req = smart_query env store beh now req ∧
    (smart_query env store beh now req).source = "learned" ∧
    (smart_query env store beh now req).offer_internet = false := by
  have he : ∀ e : QueryEnv, smart_query e store beh now req = learnedResponse req.question d := by
    intro e
    unfold smart_query
    rw [h]
  refine ⟨he env, ?_, ?_, ?_⟩
  · rw [he env, he env']
  · rw [he env]; rfl
  · rw [he env]; rfl

/-- C5 witness: with the photosynthesis record cached, the query
`What is Photosynthesis?` returns the learned answer under two
completely different environments. -/
theorem C5_cache_hit_short_circuit_witness :
    smart_query envZero (some [docPhoto]) ⟨false, false, false⟩ 0
        ⟨"What is Photosynthesis?", 5⟩ =
      learnedResponse "What is Photosynthesis?" docPhoto ∧
    smart_query envRich (some [docPhoto]) ⟨false, false, false⟩ 0
        ⟨"What is Photosynthesis?", 5⟩ =
      smart_query envZero (some [docPhoto]) ⟨false, false, false⟩ 0
        ⟨"What is Photosynthesis?", 5⟩ ∧
    (smart_query envZero (some [docPhoto]) ⟨false, false, false⟩ 0
        ⟨"What is Photosynthesis?", 5⟩).source = "learned" := by
  have h := C5_cache_hit_short_circuit envZero envRich (some [docPhoto])
    ⟨false, false, false⟩ 0 ⟨"What is Photosynthesis?", 5⟩ docPhoto (by decide)
  exact ⟨h.1, h.2.1, h.2.2.1⟩

/-- C10: the learned-answer lookup never propagates a backing-store
failure: an unreachable store, a failing find, or a failing
access-count update all yield `none` (a cache miss), and a clean run
returns exactly the stored record found by normalized exact match. -/
theorem C10_lookup_never_raises (store : Option (List LearnedDoc))
    (beh : MongoBehavior) (now : Nat) (q : String) :
    (store = none → (search_learned_answer store beh now q).1 = none) ∧
    (beh.findFails = true → (search_learned_answer store beh now q).1 = none) ∧
    (beh.updateFails = true → (search_learned_answer store beh now q).1 = none) ∧
    (∀ docs, store = some docs → beh.findFails = false → beh.updateFails = false →
      (search_learned_answer store beh now q).1 = findOneByQL docs (normalizeQ q)) := by
  obtain ⟨ff, uf, sf⟩ := beh
  refine ⟨?_, ?_, ?_, ?_⟩
  · rintro rfl; rfl
  · rintro h
    cases store with
    | none => rfl
    | some docs => simp only at h; subst h; rfl
  · rintro h
    cases store with
    | none => rfl
    | some docs =>
      simp only at h; subst h
      simp only [search_learned_answer]
      cases hf : ff
      · cases hfind : findOneByQL docs (normalizeQ q) <;> simp
      · simp
  · rintro docs rfl hff huf
    simp only at hff huf; subst hff; subst huf
    simp only [search_learned_answer]
    cases hfind : findOneByQL docs (normalizeQ q) <;> simp

/-- C10 witness: the theorem applied to an unreachable store. -/
theorem C10_lookup_never_raises_witness :
    (search_learned_answer none ⟨false, false, false⟩ 0 "x").1 = none :=
  (C10_lookup_never_raises none ⟨false, false, false⟩ 0 "x").1 rfl

/-- C6: in the DECIDE step (cache miss, non-empty retrieval, generation
returning confidence `c`), `smart_query` returns `source = "local_db"`,
the generated confidence, and `offer_internet = (c <
LOCAL_DB_THRESHOLD)`; and the result is unchanged under any replacement
of the internet generation backend, which the primary path never
invokes. -/
theorem C6_decide_step (env : QueryEnv) (store : Option (List LearnedDoc))
    (beh : MongoBehavior) (now : Nat) (req : QueryRequest) (g : GenResult)
    (ig : String → GenResult)
    (hmiss : (search_learned_answer store beh now req.question).1 = none)
    (hne : env.retrieve req.question (min (req.top_k * 2) 40) ≠ [])
    (hgen : env.gen = fun _ _ _ _ => g) :
    (smart_query env store beh now req).source = "local_db" ∧
    (smart_query env store beh now req).confidence_score = g.confidence_score ∧
    (smart_query env store beh now req).offer_internet =
      decide (g.confidence_score < LOCAL_DB_THRESHOLD) ∧
    smart_query { env with igen := ig } store beh now req =
      smart_query env store beh now req := by
  obtain ⟨a, as, hl⟩ := List.exists_cons_of_ne_nil hne
  have hstep : ∀ igf : String → GenResult,
      smart_query { env with igen := igf } store beh now req =
        { question := req.question, answer := g.answer,
          confidence_score := g.confidence_score,
          source := "local_db",
          sources := buildSources (ensure_file_diversity (a :: as) req.top_k.toNat
            (max 3 (Int.fdiv req.top_k 2)).toNat),
          offer_internet := decide (g.confidence_score < LOCAL_DB_THRESHOLD),
          reasoning := g.reasoning } := by
    intro igf
    unfold smart_query
    rw [show (search_learned_answer store beh now req.question).1 = none from hmiss]
    simp only []
    rw [show ({ env with igen := igf } : QueryEnv).retrieve = env.retrieve from rfl, hl]
    rw [show ({ env with igen := igf } : QueryEnv).gen = env.gen from rfl, hgen]
    rfl
  have henv : smart_query env store beh now req =
      smart_query { env with igen := env.igen } store beh now req := rfl
  refine ⟨?_, ?_, ?_, ?_⟩
  · rw [henv, hstep env.igen]
  · rw [henv, hstep env.igen]
  · rw [henv, hstep env.igen]
  · rw [hstep ig, henv, hstep env.igen]

/-- C6 witness: the theorem applied to environments whose generation
reports confidence 45 and 75, giving `offer_internet = true` and
`false` respectively. -/
theorem C6_decide_step_witness :
    (smart_query env45 none ⟨false, false, false⟩ 0 ⟨"q", 5⟩).offer_internet = true ∧
    (smart_query env75 none ⟨false, false, false⟩ 0 ⟨"q", 5⟩).offer_internet = false ∧
    (smart_query env45 none ⟨false, false, false⟩ 0 ⟨"q", 5⟩).source = "local_db" := by
  have h45 := C6_decide_step env45 none ⟨false, false, false⟩ 0 ⟨"q", 5⟩
    { answer := "a45", confidence_score := 45, reasoning := "r45" } (fun _ => {})
    rfl (by decide) rfl
  have h75 := C6_decide_step env75 none ⟨false, false, false⟩ 0 ⟨"q", 5⟩
    { answer := "a75", confidence_score := 75, reasoning := "r75" } (fun _ => {})
    rfl (by decide) rfl
  refine ⟨?_, ?_, h45.1⟩
  · rw [h45.2.2.1]; decide
  · rw [h75.2.2.1]; decide

/-- C7: on the internet path a save is attempted exactly when the
caller opted in and the confidence clears `LEARNING_THRESHOLD`; in that
case `saved_to_db` and the resulting store are the save's outcome, and
otherwise `saved_to_db = false` and the store is untouched. -/
theorem C7_learning_threshold (env : QueryEnv) (store : Option (List LearnedDoc))
    (beh : MongoBehavior) (now : Nat) (req : InternetQueryRequest) :
    (req.save_if_confident = true →
      LEARNING_THRESHOLD ≤ (env.igen req.question).confidence_score →
      (internet_query env store beh now req).1.saved_to_db =
        (save_learned_answer store beh now req.question (env.igen req.question).answer
          (env.igen req.question).confidence_score none).1 ∧
      (internet_query env store beh now req).2 =
        (save_learned_answer store beh now req.question (env.igen req.question).answer
          (env.igen req.question).confidence_score none).2) ∧
    (¬(req.save_if_confident = true ∧
        LEARNING_THRESHOLD ≤ (env.igen req.question).confidence_score) →
      (internet_query env store beh now req).1.saved_to_db = false ∧
      (internet_query env store beh now req).2 = store) := by
  constructor
  · intro hopt hthr
    simp only [internet_query]
    rw [if_pos ⟨hopt, hthr⟩]
    exact ⟨rfl, rfl⟩
  · intro hno
    simp only [internet_query]
    rw [if_neg hno]
    exact ⟨rfl, rfl⟩

/-- C7 witness: the theorem applied to a reachable empty store with
opt-in: internet confidence 92 saves (`saved_to_db = true`), confidence
85 does not (`saved_to_db = false`). -/
theorem C7_learning_threshold_witness :
    (internet_query envI92 (some []) ⟨false, false, false⟩ 3 ⟨"q7", true⟩).1.saved_to_db = true ∧
    (internet_query envI85 (some []) ⟨false, false, false⟩ 3 ⟨"q7", true⟩).1.saved_to_db = false := by
  have h92 := (C7_learning_threshold envI92 (some []) ⟨false, false, false⟩ 3
    ⟨"q7", true⟩).1 rfl (by decide)
  have h85 := (C7_learning_threshold envI85 (some []) ⟨false, false, false⟩ 3
    ⟨"q7", true⟩).2 (by decide)
  refine ⟨?_, h85.1⟩
  rw [h92.1]
  decide

/-- C8 counterexample: for the request with empty question and
`top_k = -3` the primary path performs the learned-cache lookup and
returns its outcome (`source = "learned"` with the cached answer) —
no input-error result exists and retrieval/generation were not the
first gate, contradicting the claimed up-front rejection. -/
theorem C8_no_input_validation :
    (smart_query envZero (some [docEmptyQ]) ⟨false, false, false⟩ 0 ⟨"", -3⟩).source
      = "learned" ∧
    (smart_query envZero (some [docEmptyQ]) ⟨false, false, false⟩ 0 ⟨"", -3⟩).answer
      = "cached" := by
  decide

/-- C8 amended: the primary path performs no input validation — an
empty question and any (even non-positive) `top_k` flow through the
normal pipeline, whose first step is the learned-cache lookup; a cache
hit for the empty question therefore determines the response. -/
theorem C8_no_input_validation_amended (env : QueryEnv)
    (store : Option (List LearnedDoc)) (beh : MongoBehavior) (now : Nat)
    (k : Int) (d : LearnedDoc)
    (h : (search_learned_answer store beh now "").1 = some d) :
    smart_query env store beh now ⟨"", k⟩ = learnedResponse "" d := by
  unfold smart_query
  rw [show (search_learned_answer store beh now (QueryRequest.mk "" k).question).1 = some d from h]

/-- C8 witness: the amended theorem applied to a concrete store holding
a record for the empty question and `top_k = 0`. -/
theorem C8_no_input_validation_amended_witness :
    smart_query envRich (some [docEmptyQ]) ⟨false, false, false⟩ 1 ⟨"", 0⟩ =
      learnedResponse "" docEmptyQ :=
  C8_no_input_validation_amended envRich (some [docEmptyQ]) ⟨false, false, false⟩ 1 0
    docEmptyQ (by decide)

/-! ### Round-robin invariants for the diversity reranker

The central invariant: for every file key `f`, the chunks of the result
whose key is `f` are exactly the first `taken f` chunks of `f`'s group,
`taken f` never exceeds the per-file cap, and the result never exceeds
the total cap. -/

/-- One pass of the inner `for` loop preserves the round-robin
invariants. -/
theorem oneRound_inv (groups : String → List Chunk) (mc mpf : Nat)
    (hg : ∀ f c, c ∈ groups f → diversityKey c = f) :
    ∀ (keys : List String) (result : List Chunk) (taken : String → Nat),
      (∀ f, result.filter (fun c => diversityKey c == f) = (groups f).take (taken f)) →
      (∀ f, taken f ≤ mpf) →
      result.length ≤ mc →
      (∀ f, (oneRound groups mc mpf keys result taken).1.filter
          (fun c => diversityKey c == f)
        = (groups f).take ((oneRound groups mc mpf keys result taken).2.1 f)) ∧
      (∀ f, (oneRound groups mc mpf keys result taken).2.1 f ≤ mpf) ∧
      (oneRound groups mc mpf keys result taken).1.length ≤ mc := by
  intro keys
  induction keys with
  | nil =>
    intro result taken h1 h2 h3
    exact ⟨h1, h2, h3⟩
  | cons f0 rest ih =>
    intro result taken h1 h2 h3
    rw [oneRound]
    by_cases hfull : mc ≤ result.length
    · rw [if_pos hfull]
      exact ⟨h1, h2, h3⟩
    · rw [if_neg hfull]
      by_cases hguard : taken f0 < mpf ∧ taken f0 < (groups f0).length
      · rw [if_pos hguard]
        obtain ⟨c, hc⟩ : ∃ c, (groups f0)[taken f0]? = some c := by
          cases hgc : (groups f0)[taken f0]? with
          | none =>
            exact absurd (List.getElem?_eq_none_iff.mp hgc) (Nat.not_le_of_lt hguard.2)
          | some c => exact ⟨c, rfl⟩
        rw [hc]
        have hkey : diversityKey c = f0 := hg f0 c (List.getElem?_mem hc)
        have h1' : ∀ f, (result ++ [c]).filter (fun x => diversityKey x == f)
            = (groups f).take (bumpCount taken f0 f) := by
          intro f
          rw [List.filter_append]
          by_cases hf : f = f0
          · rw [hf]
            have hsing : List.filter (fun x => diversityKey x == f0) [c] = [c] := by
              simp [List.filter, hkey]
            rw [hsing, h1 f0,
              show bumpCount taken f0 f0 = taken f0 + 1 from by simp [bumpCount],
              List.take_succ, hc]
            rfl
          · have hsing : List.filter (fun x => diversityKey x == f) [c] = [] := by
              have : (diversityKey c == f) = false :=
                beq_eq_false_iff_ne.mpr (by rw [hkey]; exact Ne.symm hf)
              simp [List.filter, this]
            rw [hsing, List.append_nil, h1 f,
              show bumpCount taken f0 f = taken f from by simp [bumpCount, hf]]
        have h2' : ∀ f, bumpCount taken f0 f ≤ mpf := by
          intro f
          by_cases hf : f = f0
          · subst hf
            simpa [bumpCount] using Nat.succ_le_of_lt hguard.1
          · simpa [bumpCount, hf] using h2 f
        have h3' : (result ++ [c]).length ≤ mc := by
          rw [List.length_append]
          simpa using Nat.succ_le_of_lt (Nat.lt_of_not_le hfull)
        have hrec := ih (result ++ [c]) (bumpCount taken f0) h1' h2' h3'
        exact ⟨hrec.1, hrec.2.1, hrec.2.2⟩
      · rw [if_neg hguard]
        exact ih result taken h1 h2 h3

/-- The fueled `while` loop preserves the round-robin invariants. -/
theorem roundRobin_inv (groups : String → List Chunk) (mc mpf : Nat)
    (keys : List String)
    (hg : ∀ f c, c ∈ groups f → diversityKey c = f) :
    ∀ (fuel : Nat) (result : List Chunk) (taken : String → Nat),
      (∀ f, result.filter (fun c => diversityKey c == f) = (groups f).take (taken f)) →
      (∀ f, taken f ≤ mpf) →
      result.length ≤ mc →
      (∃ t : String → Nat,
        (∀ f, (roundRobin groups mc mpf keys fuel result taken).filter
            (fun c => diversityKey c == f) = (groups f).take (t f)) ∧
        (∀ f, t f ≤ mpf)) ∧
      (roundRobin groups mc mpf keys fuel result taken).length ≤ mc := by
  intro fuel
  induction fuel with
  | zero =>
    intro result taken h1 h2 h3
    exact ⟨⟨taken, h1, h2⟩, h3⟩
  | succ n ih =>
    intro result taken h1 h2 h3
    rw [roundRobin]
    by_cases hlt : result.length < mc
    · rw [if_pos hlt]
      have hone := oneRound_inv groups mc mpf hg keys result taken h1 h2 h3
      by_cases hadd : (oneRound groups mc mpf keys result taken).2.2 = true
      · rw [if_pos hadd]
        exact ih _ _ hone.1 hone.2.1 hone.2.2
      · rw [if_neg hadd]
        exact ⟨⟨_, hone.1, hone.2.1⟩, hone.2.2⟩
    · rw [if_neg hlt]
      exact ⟨⟨taken, h1, h2⟩, h3⟩

/-- Every member of a diversity group carries that group's key. -/
theorem groupOf_key (chunks : List Chunk) :
    ∀ f c, c ∈ groupOf chunks f → diversityKey c = f := by
  intro f c hc
  exact eq_of_beq (List.mem_filter.mp hc).2

/-- C3 corrected (amended claim): the reranker's output never exceeds
`max_chunks`, and whenever the input spans at least two distinct source
files no file contributes more than `max_per_file` entries.  (The
single-file branch returns the first `max_chunks` candidates with no
per-file cap — see the counterexample.) -/
theorem C3_diversity_caps (chunks : List Chunk) (mc mpf : Nat) :
    (ensure_file_diversity chunks mc mpf).length ≤ mc ∧
    (2 ≤ (distinctKeys (chunks.map diversityKey)).length →
      ∀ f, ((ensure_file_diversity chunks mc mpf).filter
          (fun c => diversityKey c == f)).length ≤ mpf) := by
  unfold ensure_file_diversity
  by_cases hemp : chunks.isEmpty
  · rw [if_pos hemp]
    exact ⟨by simp, by intro _ f; simp⟩
  · rw [if_neg hemp]
    by_cases hone : ((distinctKeys (chunks.map diversityKey)).length == 1) = true
    · rw [if_pos hone]
      refine ⟨by rw [List.length_take]; exact Nat.min_le_left _ _, ?_⟩
      intro h2
      exact absurd h2 (by rw [beq_iff_eq.mp hone]; decide)
    · rw [if_neg hone]
      have hinit := roundRobin_inv (groupOf chunks) mc mpf
        (distinctKeys (chunks.map diversityKey)) (groupOf_key chunks)
        (mc + 1) [] (fun _ => 0) (by intro f; simp) (by intro f; simp) (by simp)
      obtain ⟨⟨t, hfil, htle⟩, hlen⟩ := hinit
      refine ⟨hlen, ?_⟩
      intro _ f
      rw [hfil f, List.length_take]
      exact le_trans (Nat.min_le_left _ _) (htle f)

/-- C3 counterexample: with two candidates from the same single file,
`max_chunks = 2` and `max_per_file = 1`, the output contains 2 entries
of that file — the claimed per-file cap fails in the single-file
case. -/
theorem C3_single_file_cap_fails :
    ((ensure_file_diversity [c3a, c3b] 2 1).filter
        (fun c => diversityKey c == "f.pdf")).length = 2 ∧
    ¬((ensure_file_diversity [c3a, c3b] 2 1).filter
        (fun c => diversityKey c == "f.pdf")).length ≤ 1 := by
  decide

/-- C3 witness: the amended theorem applied to a two-file input with
both caps 1. -/
theorem C3_diversity_caps_witness :
    (ensure_file_diversity [c3a, c3c] 1 1).length ≤ 1 ∧
    ((ensure_file_diversity [c3a, c3c] 1 1).filter
        (fun c => diversityKey c == "f.pdf")).length ≤ 1 :=
  ⟨(C3_diversity_caps [c3a, c3c] 1 1).1,
   (C3_diversity_caps [c3a, c3c] 1 1).2 (by decide) "f.pdf"⟩

/-- C4: for every input, both caps and every source file, the chunks of
that file in the reranker's output form a prefix of the chunks of that
file in the input — in particular any two same-file candidates that
both appear in the output keep their input order. -/
theorem C4_within_file_order (chunks : List Chunk) (mc mpf : Nat) (f : String) :
    List.IsPrefix
      ((ensure_file_diversity chunks mc mpf).filter (fun c => diversityKey c == f))
      (chunks.filter (fun c => diversityKey c == f)) := by
  unfold ensure_file_diversity
  by_cases hemp : chunks.isEmpty
  · rw [if_pos hemp]
    simp
  · rw [if_neg hemp]
    by_cases hone : ((distinctKeys (chunks.map diversityKey)).length == 1) = true
    · rw [if_pos hone]
      exact List.IsPrefix.filter _ ( List.take_prefix mc chunks)
    · rw [if_neg hone]
      have hinit := roundRobin_inv (groupOf chunks) mc mpf
        (distinctKeys (chunks.map diversityKey)) (groupOf_key chunks)
        (mc + 1) [] (fun _ => 0) (by intro g; simp) (by intro g; simp) (by simp)
      obtain ⟨⟨t, hfil, _⟩, _⟩ := hinit
      rw [hfil f]
      exact List.take_prefix _ _

/-! ### Upsert invariants for the learned-answer cache -/

/-- After an upsert into a store holding at most one record for the
key, the records with that key are exactly the upserted document. -/
theorem upsert_filter_eq (ql : String) (doc : LearnedDoc)
    (hd : doc.question_lower = ql) :
    ∀ docs : List LearnedDoc, countQL docs ql ≤ 1 →
      List.filter (fun d => d.question_lower == ql) (upsertByQL docs ql doc) = [doc] := by
  intro docs
  induction docs with
  | nil =>
    intro _
    simp [upsertByQL, hd]
  | cons d ds ih =>
    intro h
    rw [upsertByQL]
    by_cases hq : (d.question_lower == ql) = true
    · rw [if_pos hq]
      have hlen : (List.filter (fun x => x.question_lower == ql) ds).length = 0 := by
        have hc : countQL (d :: ds) ql
            = (List.filter (fun x => x.question_lower == ql) ds).length + 1 := by
          simp [countQL, List.filter_cons, hq]
        rw [hc] at h
        omega
      have hnil := List.length_eq_zero.mp hlen
      simp [List.filter_cons, hd, hnil]
    · rw [if_neg hq]
      have h' : countQL ds ql ≤ 1 := by
        have hc : countQL (d :: ds) ql = countQL ds ql := by
          simp [countQL, List.filter_cons, hq]
        rw [hc] at h
        exact h
      simp [List.filter_cons, hq, ih h']

/-- A successful save through a reachable store upserts the full
document keyed by the normalized question. -/
theorem save_state_eq (docs : List LearnedDoc) (beh : MongoBehavior)
    (hsf : beh.saveFails = false) (now : Nat) (q a : String) (c : Nat) :
    (save_learned_answer (some docs) beh now q a c none).2 =
      some (upsertByQL docs (normalizeQ q)
        { question := q, question_lower := normalizeQ q, answer := a,
          confidence_score := c, source := some "internet", source_query := none,
          created_at := now, last_accessed := now, access_count := 1 }) := by
  simp [save_learned_answer, hsf]

/-- C9 counterexample: starting from a record with `access_count = 2`,
a re-save for the same normalized question resets `access_count` to 1
(`$set` writes the full document), so the next access leaves the stored
count at 2 — strictly less than the prior value + 1 = 3 that the claim
requires. -/
theorem C9_access_count_reset :
    (search_learned_answer
        (save_learned_answer (some [docPrior]) ⟨false, false, false⟩ 5 "q" "new" 95 none).2
        ⟨false, false, false⟩ 6 "q").2 =
      some [{ question := "q", question_lower := "q", answer := "new",
              confidence_score := 95, source := some "internet", source_query := none,
              created_at := 5, last_accessed := 6, access_count := 2 }] ∧
    docPrior.access_count = 2 ∧ ¬(docPrior.access_count + 1 ≤ 2) := by
  decide

/-- C9 corrected (amended claim): saving twice for the same normalized
question against a store with at most one record per key leaves exactly
one record for that key, carrying the second save's answer and
confidence — but with `access_count` reset to 1 (so the next access
stores 2 regardless of the prior count). -/
theorem C9_upsert_amended (docs : List LearnedDoc) (beh : MongoBehavior)
    (t1 t2 : Nat) (q a1 a2 : String) (c1 c2 : Nat)
    (hsf : beh.saveFails = false)
    (hinv : countQL docs (normalizeQ q) ≤ 1) :
    ∃ docs2,
      (save_learned_answer
          (save_learned_answer (some docs) beh t1 q a1 c1 none).2 beh t2 q a2 c2 none).2
        = some docs2 ∧
      countQL docs2 (normalizeQ q) = 1 ∧
      ∀ d ∈ docs2, d.question_lower = normalizeQ q →
        d.answer = a2 ∧ d.confidence_score = c2 ∧ d.access_count = 1 := by
  rw [save_state_eq docs beh hsf t1 q a1 c1]
  have hf1 := upsert_filter_eq (normalizeQ q)
    { question := q, question_lower := normalizeQ q, answer := a1,
      confidence_score := c1, source := some "internet", source_query := none,
      created_at := t1, last_accessed := t1, access_count := 1 } rfl docs hinv
  have hinv1 : countQL (upsertByQL docs (normalizeQ q)
      { question := q, question_lower := normalizeQ q, answer := a1,
        confidence_score := c1, source := some "internet", source_query := none,
        created_at := t1, last_accessed := t1, access_count := 1 }) (normalizeQ q) ≤ 1 := by
    unfold countQL
    rw [hf1]
    simp
  rw [save_state_eq _ beh hsf t2 q a2 c2]
  have hf2 := upsert_filter_eq (normalizeQ q)
    { question := q, question_lower := normalizeQ q, answer := a2,
      confidence_score := c2, source := some "internet", source_query := none,
      created_at := t2, last_accessed := t2, access_count := 1 } rfl _ hinv1
  refine ⟨_, rfl, ?_, ?_⟩
  · unfold countQL
    rw [hf2]
    rfl
  · intro d hd hdql
    have hmem : d ∈ List.filter (fun x => x.question_lower == normalizeQ q)
        (upsertByQL (upsertByQL docs (normalizeQ q)
          { question := q, question_lower := normalizeQ q, answer := a1,
            confidence_score := c1, source := some "internet", source_query := none,
            created_at := t1, last_accessed := t1, access_count := 1 }) (normalizeQ q)
          { question := q, question_lower := normalizeQ q, answer := a2,
            confidence_score := c2, source := some "internet", source_query := none,
            created_at := t2, last_accessed := t2, access_count := 1 }) :=
      List.mem_filter.mpr ⟨hd, by rw [hdql]; exact beq_self_eq_true _⟩
    rw [hf2] at hmem
    have hde := List.mem_singleton.mp hmem
    rw [hde]
    exact ⟨rfl, rfl, rfl⟩

/-- C9 witness: the amended theorem applied to an empty store and two
concrete saves for the question `Q9`. -/
theorem C9_upsert_amended_witness :
    ∃ docs2,
      (save_learned_answer
          (save_learned_answer (some []) ⟨false, false, false⟩ 1 "Q9" "first" 91 none).2
          ⟨false, false, false⟩ 2 "Q9" "second" 95 none).2 = some docs2 ∧
      countQL docs2 (normalizeQ "Q9") = 1 ∧
      ∀ d ∈ docs2, d.question_lower = normalizeQ "Q9" →
        d.answer = "second" ∧ d.confidence_score = 95 ∧ d.access_count = 1 :=
  C9_upsert_amended [] ⟨false, false, false⟩ 1 2 "Q9" "first" "second" 91 95 rfl
    (by simp [countQL])
